import Mathlib

/-!
# Scaleway zone plugin: `ServeDNS`, `updateZones`, `Run`, `New` and `parse`

A shallow embedding of `plugin/scaleway/scw.go` and `plugin/scaleway/setup.go`.

* Go strings are Lean `String`s, `len` is `String.utf8ByteSize`.
* `map[string]*file.Zone` is a function `String → Option (Option Zone)`:
  `none` is an absent key, `some none` a key holding a nil pointer and
  `some (some z)` a key holding the zone `z`.
* Calls that leave the package (`request.Request.Name`, `dns.IsSubDomain`,
  `file.Zone.Lookup`, `fall.F.Through`, `plugin.NextOrFailure`, the Scaleway
  API, `file.Parse`, `dns.Fqdn`, `fall.F.SetZonesFromArgs`) are parameters, so
  every theorem holds for all behaviours of these collaborators.
* `plugin.Zones.Matches`, `dns.Msg.SetReply` and the token dispenser of
  `caddy.Controller` are not part of the sources and are modelled.
* The goroutines of a refresh cycle write distinct keys under one mutex; a
  cycle is modelled as the goroutines completing one after another in an
  arbitrary order.
* What a call of `ServeDNS` does to the outside world is recorded, in program
  order, as a list of `Op`s next to the returned `(int, error)` pair.
* `context.Context` is only passed through by the code and is left out.
-/

namespace Scaleway

/-! ## Data model -/

/-- The lookup outcome `file.Result`. -/
inductive Result where
  | Success
  | NameError
  | Delegation
  | NoData
  | ServerFailure
  deriving DecidableEq

/-- The response code `dns.RcodeSuccess`. -/
def RcodeSuccess : Nat := 0

/-- The response code `dns.RcodeServerFailure`. -/
def RcodeServerFailure : Nat := 2

/-- The response code `dns.RcodeNameError`. -/
def RcodeNameError : Nat := 3

/-- The opcode `dns.OpcodeQuery`. -/
def OpcodeQuery : Nat := 0

/-- The entry `dns.Question` of a question section. -/
structure Question where
  Name : String
  Qtype : Nat
  Qclass : Nat
  deriving DecidableEq

/-- The message `dns.Msg` with its header `dns.MsgHdr`; `RR` is the type of
resource records. The default value of every field is Go's zero value, so
`({} : Msg RR)` is `new(dns.Msg)`. -/
structure Msg (RR : Type) where
  Id : Nat := 0
  Response : Bool := false
  Opcode : Nat := 0
  Authoritative : Bool := false
  Truncated : Bool := false
  RecursionDesired : Bool := false
  RecursionAvailable : Bool := false
  Zero : Bool := false
  AuthenticatedData : Bool := false
  CheckingDisabled : Bool := false
  Rcode : Nat := 0
  Compress : Bool := false
  Question : List Question := []
  Answer : List RR := []
  Ns : List RR := []
  Extra : List RR := []
  deriving DecidableEq

/-- The fallthrough setting `fall.F`. -/
structure F where
  Zones : List String := []
  deriving DecidableEq

/-- The type `zoneFiles`, `map[string]*file.Zone`. -/
abbrev zoneFiles (Zone : Type) : Type := String → Option (Option Zone)

/-- The plugin state `ScwDNS`; `Zone` stands for `file.Zone` and `H` for
`plugin.Handler` (a nil interface is `none`). The field `api` is the
`ExportRawDNSZone` of a `Provider`, and `zoneMutex` shows as the lock
operations of `Op`. -/
structure ScwDNS (Zone H : Type) where
  exportedZones : zoneFiles Zone
  zones : List String
  Next : Option H
  Fall : F

/-- The operations a call of `ServeDNS` performs on shared state and on its
collaborators, in program order. -/
inductive Op (RR H : Type) where
  /-- the map read `s.exportedZones[zoneName]` -/
  | MapRead (zoneName : String)
  /-- the call `s.zoneMutex.RLock()` -/
  | RLock
  /-- the call `zone.Lookup(ctx, state, qname)` -/
  | Lookup (qname : String)
  /-- the call `s.zoneMutex.RUnlock()` -/
  | RUnlock
  /-- the call `w.WriteMsg(m)` -/
  | WriteMsg (m : Msg RR)
  /-- the call `plugin.NextOrFailure(name, next, ctx, w, r)` -/
  | NextOrFailure (name : String) (next : Option H) (r : Msg RR)
  deriving DecidableEq

/-- What a call of `ServeDNS` returns, `(rcode, err)`, together with the
operations it performed. -/
structure Reply (RR H : Type) where
  rcode : Nat
  err : Option String
  ops : List (Op RR H)
  deriving DecidableEq

/-- The collaborators of `ServeDNS` outside the package. -/
structure Env (Zone RR H : Type) where
  /-- the query name `request.Request.Name()` of a request -/
  Name : Msg RR → String
  /-- the test `dns.IsSubDomain(parent, child)` -/
  IsSubDomain : String → String → Bool
  /-- the call `zone.Lookup(ctx, state, qname)`, giving
  `(answer, ns, extra, result)` -/
  Lookup : Zone → Msg RR → String → List RR × List RR × List RR × Result
  /-- the test `fall.F.Through(qname)` -/
  Through : F → String → Bool
  /-- the value `plugin.NextOrFailure(name, next, ctx, w, r)` returns -/
  NextOrFailure : String → Option H → Msg RR → Nat × Option String

/-! ## The query path -/

/-- Modelled from the spec: `plugin.Zones.Matches` is not part of the sources.
It returns the longest zone of `z` that `qname` is a subdomain of, the first
one among those of equal length, and `""` when there is none: a later zone
replaces the current one only when it is strictly longer. -/
def Matches (isSubDomain : String → String → Bool) (z : List String)
    (qname : String) : String :=
  z.foldl
    (fun zone zname =>
      if isSubDomain zname qname && decide (zone.utf8ByteSize < zname.utf8ByteSize)
      then zname else zone)
    ""

/-- Modelled from the spec: `dns.Msg.SetReply` of the library
`github.com/miekg/dns` is not part of the sources. The reply mirrors the
request: it takes its `Id`, `Opcode` and first question, is marked as a
response with `Rcode = RcodeSuccess`, and for a standard query copies the
`RecursionDesired` and `CheckingDisabled` bits. -/
def SetReply {RR : Type} (m request : Msg RR) : Msg RR :=
  let m := { m with Id := request.Id, Response := true, Opcode := request.Opcode }
  let m :=
    if m.Opcode = OpcodeQuery then
      { m with RecursionDesired := request.RecursionDesired,
               CheckingDisabled := request.CheckingDisabled }
    else m
  let m := { m with Rcode := RcodeSuccess }
  match request.Question with
  | [] => m
  | q :: _ => { m with Question := [q] }

/-- The method `ScwDNS.Name`. -/
def ScwDNS.Name {Zone H : Type} (_s : ScwDNS Zone H) : String := "scaleway"

/-- The statement `return plugin.NextOrFailure(s.Name(), s.Next, ctx, w, r)`
reached after the operations `before`. -/
def returnNextOrFailure {Zone RR H : Type} (env : Env Zone RR H) (s : ScwDNS Zone H)
    (r : Msg RR) (before : List (Op RR H)) : Reply RR H :=
  let res := env.NextOrFailure s.Name s.Next r
  { rcode := res.1, err := res.2, ops := before ++ [Op.NextOrFailure s.Name s.Next r] }

/-- The method `ScwDNS.ServeDNS`. -/
def ServeDNS {Zone RR H : Type} (env : Env Zone RR H) (s : ScwDNS Zone H)
    (r : Msg RR) : Reply RR H :=
  let qname := env.Name r
  let zoneName := Matches env.IsSubDomain s.zones qname
  if zoneName = "" then
    returnNextOrFailure env s r []
  else
    match s.exportedZones zoneName with
    | none => { rcode := RcodeServerFailure, err := none, ops := [Op.MapRead zoneName] }
    | some none => { rcode := RcodeServerFailure, err := none, ops := [Op.MapRead zoneName] }
    | some (some zone) =>
      let m : Msg RR := {}
      let m := SetReply m r
      let m := { m with Authoritative := true }
      let res := env.Lookup zone r qname
      let m := { m with Answer := res.1, Ns := res.2.1, Extra := res.2.2.1 }
      let result := res.2.2.2
      let ops := [Op.MapRead zoneName, Op.RLock, Op.Lookup qname, Op.RUnlock]
      if m.Answer.length = 0 ∧ result ≠ Result.NoData ∧ env.Through s.Fall qname = true then
        returnNextOrFailure env s r ops
      else
        match result with
        | Result.Success =>
          { rcode := RcodeSuccess, err := none, ops := ops ++ [Op.WriteMsg m] }
        | Result.NoData =>
          { rcode := RcodeSuccess, err := none, ops := ops ++ [Op.WriteMsg m] }
        | Result.NameError =>
          let m := { m with Rcode := RcodeNameError }
          { rcode := RcodeSuccess, err := none, ops := ops ++ [Op.WriteMsg m] }
        | Result.Delegation =>
          let m := { m with Authoritative := false }
          { rcode := RcodeSuccess, err := none, ops := ops ++ [Op.WriteMsg m] }
        | Result.ServerFailure =>
          { rcode := RcodeServerFailure, err := none, ops := ops }

/-- The message `m` of `ServeDNS` as it stands before the `switch`: `SetReply`,
the authoritative flag and the three sections of the lookup. -/
def replyMsg {RR : Type} (r : Msg RR) (res : List RR × List RR × List RR × Result) : Msg RR :=
  { SetReply ({} : Msg RR) r with
    Authoritative := true, Answer := res.1, Ns := res.2.1, Extra := res.2.2.1 }

/-- The messages a reply wrote with `w.WriteMsg`. -/
def Reply.written {RR H : Type} (rep : Reply RR H) : List (Msg RR) :=
  rep.ops.filterMap (fun o => match o with
    | Op.WriteMsg m => some m
    | _ => none)

/-- The number of times a reply handed the query to `plugin.NextOrFailure`. -/
def Reply.forwards {RR H : Type} (rep : Reply RR H) : Nat :=
  rep.ops.countP (fun o => match o with
    | Op.NextOrFailure _ _ _ => true
    | _ => false)

/-! ## The refresh path -/

/-- The collaborators of the refresh path outside the package; `Content` is
the type of an exported zone document. `Parse` yields a zone or an error, as
the spec says of the parser (compiled zone or parse error). -/
structure Provider (Zone Content : Type) where
  /-- the call `s.api.ExportRawDNSZone(request for zoneName in bind format)` -/
  ExportRawDNSZone : String → Except String Content
  /-- the call `file.Parse(resp.Content, zoneName, "zone", 1)` -/
  Parse : Content → String → Except String Zone

/-- The goroutine `updateZones` starts for one zone: export, parse, store the
zone under the write lock. It returns the new state and the value it sends on
`errChan` (`none` is nil). -/
def updateZone {Zone Content H : Type} (p : Provider Zone Content) (s : ScwDNS Zone H)
    (zoneName : String) : ScwDNS Zone H × Option String :=
  match p.ExportRawDNSZone zoneName with
  | Except.error err => (s, some ("failed to list dns zone records: " ++ err))
  | Except.ok resp =>
    match p.Parse resp zoneName with
    | Except.error err => (s, some ("failed to parse zone file: " ++ err))
    | Except.ok zoneFile =>
      ({ s with exportedZones := fun k => if k = zoneName then some (some zoneFile)
                                           else s.exportedZones k }, none)

/-- The spec's fetch outcome of a zone: the compiled zone when both the export
and the parse succeed, `none` when either fails. -/
def fetched {Zone Content : Type} (p : Provider Zone Content) (zoneName : String) :
    Option Zone :=
  match p.ExportRawDNSZone zoneName with
  | Except.error _ => none
  | Except.ok resp =>
    match p.Parse resp zoneName with
    | Except.error _ => none
    | Except.ok zoneFile => some zoneFile

/-- The goroutines of one cycle running to completion in the order `order`,
and the receive loop appending each non-nil value to `errs`. -/
def runZones {Zone Content H : Type} (p : Provider Zone Content) :
    List String → ScwDNS Zone H × List String → ScwDNS Zone H × List String
  | [], acc => acc
  | zoneName :: rest, (s, errs) =>
    match updateZone p s zoneName with
    | (s, none) => runZones p rest (s, errs)
    | (s, some err) => runZones p rest (s, errs ++ [err])

/-- The method `ScwDNS.updateZones`. One goroutine is started per entry of
`s.zones`; `order` is the order in which they complete (a permutation of
`s.zones`, which the theorems assume). The combined error
`fmt.Errorf("failed to update zones: %q", errs)` is `some errs`. -/
def updateZones {Zone Content H : Type} (p : Provider Zone Content) (s : ScwDNS Zone H)
    (order : List String) : ScwDNS Zone H × Option (List String) :=
  let res := runZones p order (s, [])
  if res.2.length ≠ 0 then (res.1, some res.2) else (res.1, none)

/-- The method `ScwDNS.Run` up to its return: the first, synchronous cycle.
The goroutine it then starts repeats `updateZones` on a timer after `Run` has
returned and is not part of this value. -/
def Run {Zone Content H : Type} (p : Provider Zone Content) (s : ScwDNS Zone H)
    (order : List String) : ScwDNS Zone H × Option (List String) :=
  match updateZones p s order with
  | (s, some err) => (s, some err)
  | (s, none) => (s, none)

/-- The constructor `New`; `Fqdn` is `dns.Fqdn`. The argument `api` is the
`Provider` handed to `updateZones`. -/
def New {Zone H : Type} (Fqdn : String → String) (zones : List String) (f : F) :
    ScwDNS Zone H × Option String :=
  let fqdnZones := zones.map Fqdn
  ({ exportedZones := fun _ => none, zones := fqdnZones, Next := none, Fall := f }, none)

/-! ## The configuration parser -/

/-- The struct `Settings`; a nil `*string` is `none`. -/
structure Settings where
  AccessKey : Option String := none
  SecretKey : Option String := none
  ProjectID : Option String := none
  zones : List String := []
  Fall : F := {}
  deriving DecidableEq

/-- Modelled from the spec: `caddyfile.Token` is not part of the sources. A
token is a word of the configuration with the line it starts on. -/
structure Token where
  File : String
  Line : Nat
  Text : String
  deriving DecidableEq

/-- Modelled from the spec: `caddy.Controller` is not part of the sources and
the spec leaves configuration parsing to it; the model follows the token
dispenser of the library `github.com/coredns/caddy`. Of the controller only
the dispenser is used: the tokens, the index of the current token (`-1` before
the first) and the block nesting depth. -/
structure Controller where
  tokens : List Token
  cursor : Int
  nesting : Int
  deriving DecidableEq

/-- The errors `parse` returns: `c.ArgErr()` and
`c.Errf("unknown key: %s", key)`. -/
inductive ParseError where
  | ArgErr
  | UnknownKey (key : String)
  deriving DecidableEq

/-- The number of line breaks in a word. -/
def lineBreaks (text : String) : Nat := text.toList.count (Char.ofNat 10)

/-- The token at index `i`, if there is one. -/
def Controller.tokenAt (c : Controller) (i : Int) : Option Token :=
  if i < 0 then none else c.tokens[i.toNat]?

/-- Modelled from the spec: `Controller.Val`, the text of the current token,
`""` when the cursor is outside the tokens. -/
def Controller.Val (c : Controller) : String :=
  match c.tokenAt c.cursor with
  | some t => t.Text
  | none => ""

/-- The number of line breaks inside the token at index `i`. -/
def Controller.numLineBreaks (c : Controller) (i : Int) : Nat :=
  match c.tokenAt i with
  | some t => lineBreaks t.Text
  | none => 0

/-- Modelled from the spec: `Controller.Next`, which moves to the next token
if there is one. -/
def Controller.Next (c : Controller) : Bool × Controller :=
  if c.cursor < (c.tokens.length : Int) - 1 then
    (true, { c with cursor := c.cursor + 1 })
  else (false, c)

/-- Modelled from the spec: `Controller.NextArg`, which moves to the next
token only if it is on the same line of the same file as the current one. -/
def Controller.NextArg (c : Controller) : Bool × Controller :=
  if c.cursor < 0 then
    (true, { c with cursor := c.cursor + 1 })
  else if c.cursor ≥ (c.tokens.length : Int) then
    (false, c)
  else
    match c.tokenAt c.cursor, c.tokenAt (c.cursor + 1) with
    | some cur, some nxt =>
      if cur.File = nxt.File ∧ cur.Line + c.numLineBreaks c.cursor = nxt.Line then
        (true, { c with cursor := c.cursor + 1 })
      else (false, c)
    | _, _ => (false, c)

/-- Modelled from the spec: `Controller.NextBlock`, which enters a block
opened by `{` on the current line, then steps through its tokens until the
closing `}`. -/
def Controller.NextBlock (c : Controller) : Bool × Controller :=
  if c.nesting > 0 then
    let c := c.Next.2
    if c.Val = "\x7d" then (false, { c with nesting := c.nesting - 1 })
    else (true, c)
  else
    let (ok, c) := c.NextArg
    if !ok then (false, c)
    else if c.Val ≠ "\x7b" then (false, { c with cursor := c.cursor - 1 })
    else
      let c := c.Next.2
      if c.Val = "\x7d" then (false, c)
      else (true, { c with nesting := c.nesting + 1 })

/-- The loop of `Controller.RemainingArgs`; `none` when `fuel` calls of
`NextArg` did not end it. -/
def Controller.RemainingArgsLoop : Nat → Controller → List String →
    Option (List String × Controller)
  | 0, _, _ => none
  | fuel + 1, c, args =>
    let (ok, c) := c.NextArg
    if !ok then some (args, c)
    else if c.Val = "\x7b" then some (args, { c with cursor := c.cursor - 1 })
    else Controller.RemainingArgsLoop fuel c (args ++ [c.Val])

/-- Modelled from the spec: `Controller.RemainingArgs`, the tokens left on
the current line up to an opening `{`. Every `NextArg` that succeeds moves the
cursor forward, so `tokens.length + 2` calls end the loop. -/
def Controller.RemainingArgs (c : Controller) : Option (List String × Controller) :=
  Controller.RemainingArgsLoop (c.tokens.length + 2) c []

/-- The loop `for c.NextBlock() { ... }` of `parse`; `setZonesFromArgs` is
`fall.F.SetZonesFromArgs`. The result is `none` when `fuel` iterations did
not end the loop. -/
def parseBlock (setZonesFromArgs : F → List String → F) :
    Nat → Controller → Settings → Option (Settings × Option ParseError)
  | 0, _, _ => none
  | fuel + 1, c, s =>
    let (more, c) := c.NextBlock
    if !more then some (s, none)
    else
      let key := c.Val
      let (ok, c) := c.NextArg
      if !ok then some (s, some ParseError.ArgErr)
      else
        let value := c.Val
        if key = "access_key" then
          parseBlock setZonesFromArgs fuel c { s with AccessKey := some value }
        else if key = "secret_key" then
          parseBlock setZonesFromArgs fuel c { s with SecretKey := some value }
        else if key = "project_id" then
          parseBlock setZonesFromArgs fuel c { s with ProjectID := some value }
        else if key = "fallthrough" then
          match c.RemainingArgs with
          | none => none
          | some (args, c) =>
            parseBlock setZonesFromArgs fuel c
              { s with Fall := setZonesFromArgs s.Fall (args ++ [value]) }
        else some (s, some (ParseError.UnknownKey key))

/-- The function `parse`. Every iteration of its loop that does not return
moves the cursor forward, so `tokens.length + 2` iterations end it; `none`
would mean that they did not. -/
def parse (setZonesFromArgs : F → List String → F) (c : Controller) :
    Option (Settings × Option ParseError) :=
  let s : Settings := {}
  let c := c.Next.2
  match c.RemainingArgs with
  | none => none
  | some (args, c) =>
    let s := { s with zones := s.zones ++ args }
    parseBlock setZonesFromArgs (c.tokens.length + 2) c s

/-- Modelled from the spec: `caddy.NewTestController` on an already
tokenised configuration: the cursor is before the first token. -/
def NewTestController (tokens : List Token) : Controller :=
  { tokens := tokens, cursor := -1, nesting := 0 }

/-! ## Configurations as token lists -/

/-- The tokens of words written one after another from line `line` on, as the
lexer numbers them: a token is on the line where the word before it ended. -/
def lineTokens (file : String) : Nat → List String → List Token
  | _, [] => []
  | line, w :: ws => ⟨file, line, w⟩ :: lineTokens file (line + lineBreaks w) ws

/-- The line on which words written from line `line` on end. -/
def lineEnd : Nat → List String → Nat
  | line, [] => line
  | line, w :: ws => lineEnd (line + lineBreaks w) ws

/-- An entry of a block as it is written: a key, the value that follows it on
its line if there is one, and the number of line breaks between the entry and
the word after it (`0` when that word is on the same line). -/
structure BlockEntry where
  key : String
  value : Option String
  gap : Nat
  deriving DecidableEq

/-- The tokens of a block body whose first word is on line `line`: the entries
one after another, each followed by its line breaks, then the closing
brace. -/
def blockTokens (file : String) : Nat → List BlockEntry → List Token
  | line, [] => [⟨file, line, "\x7d"⟩]
  | line, ⟨key, none, gap⟩ :: entries =>
    ⟨file, line, key⟩ :: blockTokens file (line + lineBreaks key + gap) entries
  | line, ⟨key, some value, gap⟩ :: entries =>
    ⟨file, line, key⟩ :: ⟨file, line + lineBreaks key, value⟩ ::
      blockTokens file (line + lineBreaks key + lineBreaks value + gap) entries

/-- The tokens of the configuration `name a1 ... an {`, then `gap` line breaks,
then the entries and the closing brace, that starts on line `line` of
`file`. -/
def config (file : String) (line : Nat) (name : String) (args : List String) (gap : Nat)
    (entries : List BlockEntry) : List Token :=
  lineTokens file line (name :: args ++ ["\x7b"]) ++
    blockTokens file (lineEnd line (name :: args ++ ["\x7b"]) + gap) entries

/-- The controller whose cursor is on the token `cur`, with the tokens
`before` behind it and the tokens `after` ahead. -/
def zipAt (before : List Token) (cur : Token) (after : List Token) (nesting : Int) :
    Controller :=
  { tokens := before ++ cur :: after, cursor := (before.length : Int), nesting := nesting }

/-- The spec's single reader/writer exclusion on the query path: every read of
the snapshot mapping and every lookup in `ops` happens while the read lock is
held; `held` says whether it is held before the first operation. -/
def readsUnderRLock {RR H : Type} : Bool → List (Op RR H) → Bool
  | _, [] => true
  | _, Op.RLock :: rest => readsUnderRLock true rest
  | _, Op.RUnlock :: rest => readsUnderRLock false rest
  | held, Op.MapRead _ :: rest => held && readsUnderRLock held rest
  | held, Op.Lookup _ :: rest => held && readsUnderRLock held rest
  | held, Op.WriteMsg _ :: rest => readsUnderRLock held rest
  | held, Op.NextOrFailure _ _ _ :: rest => readsUnderRLock held rest

/-! ## A concrete instance

A small instance of the collaborators on which the theorems below are
evaluated. -/

/-- A zone that answers every lookup with the same sections and outcome;
records are written in presentation format. -/
abbrev DemoZone : Type := List String × List String × List String × Result

/-- A label-wise subdomain test on names in presentation format: `parent` is
the root, equals `child`, or is what follows one of the dots of `child`. -/
def demoIsSubDomain (parent child : String) : Bool :=
  parent = "." || parent = child || (".".toList ++ parent.toList).isSuffixOf child.toList

/-- The demo collaborators: the query name is the name of the first question,
fallthrough zones are matched like configured zones, and the chain after this
plugin either has a handler that answers `RcodeSuccess` or is empty. -/
def demoEnv : Env DemoZone String Unit where
  Name := fun r => match r.Question with
    | [] => "."
    | q :: _ => q.Name
  IsSubDomain := demoIsSubDomain
  Lookup := fun zone _ _ => zone
  Through := fun f qname => Matches demoIsSubDomain f.Zones qname ≠ ""
  NextOrFailure := fun _ next _ => match next with
    | some _ => (RcodeSuccess, none)
    | none => (RcodeServerFailure, some "no next plugin found")

/-- The query `www.example.com. IN A` with transaction id 7. -/
def demoQuery : Msg String :=
  { Id := 7, RecursionDesired := true,
    Question := [{ Name := "www.example.com.", Qtype := 1, Qclass := 1 }] }

/-- A plugin serving `example.com.` from the snapshot `zone`, with
fallthrough for `fallZones` and a next handler. -/
def demoScw (zone : Option (Option DemoZone)) (fallZones : List String) :
    ScwDNS DemoZone Unit :=
  { exportedZones := fun k => if k = "example.com." then zone else none,
    zones := ["com.", "example.com.", "example.org."],
    Next := some (),
    Fall := { Zones := fallZones } }

/-- A zone holding one address record for `www.example.com.`. -/
def demoZoneA : DemoZone :=
  (["www.example.com. 3600 IN A 192.0.2.1"], ["example.com. 3600 IN NS ns.example.com."], [],
    Result.Success)

/-- A provider that exports `example.com.` and `example.org.` and parses only
the former. -/
def demoProvider : Provider DemoZone String where
  ExportRawDNSZone := fun zoneName =>
    if zoneName = "example.com." ∨ zoneName = "example.org." then Except.ok zoneName
    else Except.error "zone not found"
  Parse := fun content _ =>
    if content = "example.com." then Except.ok demoZoneA
    else Except.error "syntax error"

/-- A name with a dot appended unless it ends in one. -/
def demoFqdn (zone : String) : String :=
  if ".".toList.isSuffixOf zone.toList then zone else zone ++ "."

/-- The plugin as `New` builds it for the zones `example.com` and
`example.org`. -/
def demoFresh : ScwDNS DemoZone Unit :=
  (New demoFqdn ["example.com", "example.org"] {}).1

/-! ## Shared lemmas: zone matching -/

/-- The step of the loop of `Matches`. -/
theorem matches_foldl_spec (isSubDomain : String → String → Bool) (qname : String)
    (z : List String) (acc : String) :
    let res := z.foldl
      (fun zone zname =>
        if isSubDomain zname qname && decide (zone.utf8ByteSize < zname.utf8ByteSize)
        then zname else zone) acc
    (res = acc ∨ (res ∈ z ∧ isSubDomain res qname = true)) ∧
    acc.utf8ByteSize ≤ res.utf8ByteSize ∧
    ∀ zname ∈ z, isSubDomain zname qname = true → zname.utf8ByteSize ≤ res.utf8ByteSize := by
  induction z generalizing acc with
  | nil => simp
  | cons zname rest ih =>
    intro res
    by_cases hc : (isSubDomain zname qname && decide (acc.utf8ByteSize < zname.utf8ByteSize)) = true
    · have hstep : res = rest.foldl
          (fun zone zname =>
            if isSubDomain zname qname && decide (zone.utf8ByteSize < zname.utf8ByteSize)
            then zname else zone) zname := by
        simp only [res, List.foldl_cons, hc, if_true]
      obtain ⟨h1, h2, h3⟩ := ih zname
      rw [← hstep] at h1 h2 h3
      simp only [Bool.and_eq_true, decide_eq_true_eq] at hc
      refine ⟨?_, ?_, ?_⟩
      · rcases h1 with h1 | ⟨h1, h1'⟩
        · right
          exact ⟨by rw [h1]; exact List.mem_cons_self _ _, by rw [h1]; exact hc.1⟩
        · right
          exact ⟨List.mem_cons_of_mem _ h1, h1'⟩
      · omega
      · intro y hy hsub
        rcases List.mem_cons.mp hy with rfl | hy
        · exact h2
        · exact h3 y hy hsub
    · have hstep : res = rest.foldl
          (fun zone zname =>
            if isSubDomain zname qname && decide (zone.utf8ByteSize < zname.utf8ByteSize)
            then zname else zone) acc := by
        simp only [res, List.foldl_cons, hc, Bool.false_eq_true, if_false]
      obtain ⟨h1, h2, h3⟩ := ih acc
      rw [← hstep] at h1 h2 h3
      refine ⟨?_, h2, ?_⟩
      · rcases h1 with h1 | ⟨h1, h1'⟩
        · left; exact h1
        · right; exact ⟨List.mem_cons_of_mem _ h1, h1'⟩
      · intro y hy hsub
        rcases List.mem_cons.mp hy with rfl | hy
        · simp only [Bool.and_eq_true, decide_eq_true_eq, not_and, not_lt] at hc
          exact le_trans (hc hsub) h2
        · exact h3 y hy hsub

/-- A zone returned by `Matches` is configured, matches the query name and is
at least as long as every configured zone that matches. -/
theorem matches_spec (isSubDomain : String → String → Bool) (z : List String)
    (qname : String) (h : Matches isSubDomain z qname ≠ "") :
    Matches isSubDomain z qname ∈ z ∧
    isSubDomain (Matches isSubDomain z qname) qname = true ∧
    ∀ zname ∈ z, isSubDomain zname qname = true →
      zname.utf8ByteSize ≤ (Matches isSubDomain z qname).utf8ByteSize := by
  obtain ⟨h1, _, h3⟩ := matches_foldl_spec isSubDomain qname z ""
  rcases h1 with h1 | h1
  · exact absurd h1 h
  · exact ⟨h1.1, h1.2, h3⟩

/-- When no configured zone matches the query name, `Matches` returns `""`. -/
theorem matches_none (isSubDomain : String → String → Bool) (z : List String)
    (qname : String) (h : ∀ zname ∈ z, isSubDomain zname qname = false) :
    Matches isSubDomain z qname = "" := by
  by_contra hne
  obtain ⟨hmem, hsub, _⟩ := matches_spec isSubDomain z qname hne
  rw [h _ hmem] at hsub
  exact Bool.false_ne_true hsub

/-- The zone the loop of `Matches` ends with is its starting value or the first
zone of the list that matches the query name and is longer than the starting
value and than every matching zone before it. -/
theorem matches_foldl_first (isSubDomain : String → String → Bool) (qname : String)
    (z : List String) (acc : String) :
    let res := z.foldl
      (fun zone zname =>
        if isSubDomain zname qname && decide (zone.utf8ByteSize < zname.utf8ByteSize)
        then zname else zone) acc
    res = acc ∨ ∃ pre post, z = pre ++ res :: post ∧ isSubDomain res qname = true ∧
      acc.utf8ByteSize < res.utf8ByteSize ∧
      ∀ y ∈ pre, isSubDomain y qname = true → y.utf8ByteSize < res.utf8ByteSize := by
  induction z generalizing acc with
  | nil => simp
  | cons zname rest ih =>
    intro res
    by_cases hc : (isSubDomain zname qname && decide (acc.utf8ByteSize < zname.utf8ByteSize)) = true
    · have hstep : res = rest.foldl
          (fun zone zname =>
            if isSubDomain zname qname && decide (zone.utf8ByteSize < zname.utf8ByteSize)
            then zname else zone) zname := by
        simp only [res, List.foldl_cons, hc, if_true]
      have h1 := ih zname
      simp only at h1
      rw [← hstep] at h1
      simp only [Bool.and_eq_true, decide_eq_true_eq] at hc
      right
      rcases h1 with h1 | ⟨pre, post, hz, hsub, hlt, hpre⟩
      · refine ⟨[], rest, by rw [h1]; rfl, by rw [h1]; exact hc.1, by rw [h1]; exact hc.2, ?_⟩
        intro y hy
        simp at hy
      · refine ⟨zname :: pre, post, by rw [hz]; rfl, hsub, by omega, ?_⟩
        intro y hy hy'
        rcases List.mem_cons.mp hy with rfl | hy
        · exact hlt
        · exact hpre y hy hy'
    · have hstep : res = rest.foldl
          (fun zone zname =>
            if isSubDomain zname qname && decide (zone.utf8ByteSize < zname.utf8ByteSize)
            then zname else zone) acc := by
        simp only [res, List.foldl_cons, hc, Bool.false_eq_true, if_false]
      have h1 := ih acc
      simp only at h1
      rw [← hstep] at h1
      rcases h1 with h1 | ⟨pre, post, hz, hsub, hlt, hpre⟩
      · left; exact h1
      · right
        refine ⟨zname :: pre, post, by rw [hz]; rfl, hsub, hlt, ?_⟩
        intro y hy hy'
        rcases List.mem_cons.mp hy with rfl | hy
        · simp only [Bool.and_eq_true, decide_eq_true_eq, not_and, not_lt] at hc
          have := hc hy'
          omega
        · exact hpre y hy hy'

/-! ## Shared lemmas: the three branches of `ServeDNS` -/

/-- No zone matched: the query goes to `plugin.NextOrFailure`. -/
theorem serveDNS_unmatched {Zone RR H : Type} (env : Env Zone RR H) (s : ScwDNS Zone H)
    (r : Msg RR) (hz : Matches env.IsSubDomain s.zones (env.Name r) = "") :
    ServeDNS env s r = returnNextOrFailure env s r [] := by
  simp [ServeDNS, hz]

/-- The matched zone has no snapshot: `RcodeServerFailure` after the map read. -/
theorem serveDNS_unready {Zone RR H : Type} (env : Env Zone RR H) (s : ScwDNS Zone H)
    (r : Msg RR) (hz : Matches env.IsSubDomain s.zones (env.Name r) ≠ "")
    (hs : s.exportedZones (Matches env.IsSubDomain s.zones (env.Name r)) = none ∨
      s.exportedZones (Matches env.IsSubDomain s.zones (env.Name r)) = some none) :
    ServeDNS env s r =
      { rcode := RcodeServerFailure, err := none,
        ops := [Op.MapRead (Matches env.IsSubDomain s.zones (env.Name r))] } := by
  rcases hs with hs | hs <;> simp [ServeDNS, hz, hs]

/-- The matched zone has a snapshot: the fallthrough test, then the `switch`
on the outcome. -/
theorem serveDNS_ready {Zone RR H : Type} (env : Env Zone RR H) (s : ScwDNS Zone H)
    (r : Msg RR) (zone : Zone)
    (hz : Matches env.IsSubDomain s.zones (env.Name r) ≠ "")
    (hs : s.exportedZones (Matches env.IsSubDomain s.zones (env.Name r)) = some (some zone)) :
    ServeDNS env s r =
      let res := env.Lookup zone r (env.Name r)
      let ops := [Op.MapRead (Matches env.IsSubDomain s.zones (env.Name r)), Op.RLock,
        Op.Lookup (env.Name r), Op.RUnlock]
      if res.1.length = 0 ∧ res.2.2.2 ≠ Result.NoData ∧
          env.Through s.Fall (env.Name r) = true then
        returnNextOrFailure env s r ops
      else
        match res.2.2.2 with
        | Result.Success =>
          { rcode := RcodeSuccess, err := none, ops := ops ++ [Op.WriteMsg (replyMsg r res)] }
        | Result.NoData =>
          { rcode := RcodeSuccess, err := none, ops := ops ++ [Op.WriteMsg (replyMsg r res)] }
        | Result.NameError =>
          { rcode := RcodeSuccess, err := none,
            ops := ops ++ [Op.WriteMsg { replyMsg r res with Rcode := RcodeNameError }] }
        | Result.Delegation =>
          { rcode := RcodeSuccess, err := none,
            ops := ops ++ [Op.WriteMsg { replyMsg r res with Authoritative := false }] }
        | Result.ServerFailure =>
          { rcode := RcodeServerFailure, err := none, ops := ops } := by
  simp only [ServeDNS, hz, hs, if_false, replyMsg]

/-- The header fields `SetReply` fixes. -/
theorem setReply_header {RR : Type} (m request : Msg RR) :
    (SetReply m request).Rcode = RcodeSuccess ∧ (SetReply m request).Id = request.Id ∧
    (SetReply m request).Response = true := by
  unfold SetReply
  cases request.Question <;> simp <;> split <;> simp

/-! ## The query path -/

/-- C1: for a query whose matched zone has a snapshot, `ServeDNS` hands the
query to `plugin.NextOrFailure` exactly when the answer section of the lookup
is empty, the outcome is not `NoData` and `Fall.Through(qname)` holds; it then
writes nothing and returns what `NextOrFailure` returns. With outcome `NoData`
and a matching fallthrough rule the query is answered locally with one
authoritative message; with an empty answer, outcome `NameError` and a matching
fallthrough rule it is forwarded and nothing is written. -/
theorem ServeDNS_fallthrough_iff {Zone RR H : Type} (env : Env Zone RR H)
    (s : ScwDNS Zone H) (r : Msg RR) (zone : Zone)
    (hz : Matches env.IsSubDomain s.zones (env.Name r) ≠ "")
    (hs : s.exportedZones (Matches env.IsSubDomain s.zones (env.Name r)) = some (some zone)) :
    let res := env.Lookup zone r (env.Name r)
    let rep := ServeDNS env s r
    (0 < rep.forwards ↔
      (res.1.length = 0 ∧ res.2.2.2 ≠ Result.NoData ∧
        env.Through s.Fall (env.Name r) = true)) ∧
    (0 < rep.forwards →
      rep.forwards = 1 ∧ rep.written = [] ∧
      rep.rcode = (env.NextOrFailure s.Name s.Next r).1 ∧
      rep.err = (env.NextOrFailure s.Name s.Next r).2) ∧
    (res.2.2.2 = Result.NoData → env.Through s.Fall (env.Name r) = true →
      rep.forwards = 0 ∧ rep.rcode = RcodeSuccess ∧ rep.err = none ∧
      ∃ m, rep.written = [m] ∧ m.Authoritative = true ∧ m.Rcode = RcodeSuccess) ∧
    (res.1 = [] → res.2.2.2 = Result.NameError → env.Through s.Fall (env.Name r) = true →
      rep.forwards = 1 ∧ rep.written = []) := by
  intro res rep
  have hrep : rep = _ := serveDNS_ready env s r zone hz hs
  have hset := setReply_header ({} : Msg RR) r
  rcases hres : env.Lookup zone r (env.Name r) with ⟨ans, ns, extra, result⟩
  have hres' : res = (ans, ns, extra, result) := hres
  simp only [hres] at hrep
  by_cases hcond : ans.length = 0 ∧ result ≠ Result.NoData ∧
      env.Through s.Fall (env.Name r) = true
  · rw [if_pos hcond] at hrep
    obtain ⟨h1, h2, h3⟩ := hcond
    have hans : ans = [] := List.length_eq_zero.mp h1
    simp [hrep, hres', returnNextOrFailure, Reply.forwards, Reply.written, h2, h3, hans]
  · rw [if_neg hcond] at hrep
    cases result <;>
      simp_all [Reply.forwards, Reply.written, replyMsg]

/-- Witness of C1: an empty `NameError` answer for `www.example.com.` under a
fallthrough rule for the root is forwarded and nothing is written. -/
theorem ServeDNS_fallthrough_iff_witness :
    Matches demoEnv.IsSubDomain ["com.", "example.com.", "example.org."]
      (demoEnv.Name demoQuery) = "example.com." ∧
    (ServeDNS demoEnv (demoScw (some (some ([], [], [], Result.NameError))) ["."])
      demoQuery).forwards = 1 ∧
    (ServeDNS demoEnv (demoScw (some (some ([], [], [], Result.NameError))) ["."])
      demoQuery).written = [] :=
  ⟨by decide,
   (ServeDNS_fallthrough_iff demoEnv (demoScw (some (some ([], [], [], Result.NameError))) ["."])
     demoQuery ([], [], [], Result.NameError) (by decide) (by decide)).2.2.2 rfl rfl
     (by decide)⟩

/-- C2: for a query inside a configured zone that has no snapshot (key absent,
or present with a nil zone), `ServeDNS` returns `RcodeServerFailure` with a nil
error, writes nothing and never calls `plugin.NextOrFailure`, whatever the
fallthrough policy is. -/
theorem ServeDNS_no_snapshot {Zone RR H : Type} (env : Env Zone RR H)
    (s : ScwDNS Zone H) (r : Msg RR)
    (hz : Matches env.IsSubDomain s.zones (env.Name r) ≠ "")
    (hs : s.exportedZones (Matches env.IsSubDomain s.zones (env.Name r)) = none ∨
      s.exportedZones (Matches env.IsSubDomain s.zones (env.Name r)) = some none) :
    (ServeDNS env s r).rcode = RcodeServerFailure ∧
    (ServeDNS env s r).err = none ∧
    (ServeDNS env s r).forwards = 0 ∧
    (ServeDNS env s r).written = [] := by
  rw [serveDNS_unready env s r hz hs]
  simp [Reply.forwards, Reply.written]

/-- Witness of C2: `example.com.` holds a nil zone and fallthrough covers every
name. -/
theorem ServeDNS_no_snapshot_witness :
    (ServeDNS demoEnv (demoScw (some none) ["."]) demoQuery).rcode = RcodeServerFailure ∧
    (ServeDNS demoEnv (demoScw (some none) ["."]) demoQuery).err = none ∧
    (ServeDNS demoEnv (demoScw (some none) ["."]) demoQuery).forwards = 0 ∧
    (ServeDNS demoEnv (demoScw (some none) ["."]) demoQuery).written = [] :=
  ServeDNS_no_snapshot demoEnv (demoScw (some none) ["."]) demoQuery (by decide)
    (Or.inr (by decide))

/-- C3, as stated, fails: a ready zone whose lookup gives `ServerFailure` with
an empty answer, under a fallthrough rule covering the name, is forwarded, and
the returned code is the next handler's, not `RcodeServerFailure`. -/
theorem ServeDNS_serverFailure_is_forwarded :
    demoEnv.Lookup ([], [], [], Result.ServerFailure) demoQuery "www.example.com." =
      ([], [], [], Result.ServerFailure) ∧
    (ServeDNS demoEnv (demoScw (some (some ([], [], [], Result.ServerFailure))) ["."])
      demoQuery).forwards = 1 ∧
    (ServeDNS demoEnv (demoScw (some (some ([], [], [], Result.ServerFailure))) ["."])
      demoQuery).rcode ≠ RcodeServerFailure := by
  decide

/-- C3, amended: for a query against a ready zone whose lookup outcome is
`ServerFailure`, `ServeDNS` writes no message; it returns `RcodeServerFailure`
with a nil error and does not forward, except when the answer section is empty
and the fallthrough policy covers the query name, in which case it hands the
query to `plugin.NextOrFailure` and returns its result. -/
theorem ServeDNS_serverFailure {Zone RR H : Type} (env : Env Zone RR H)
    (s : ScwDNS Zone H) (r : Msg RR) (zone : Zone)
    (hz : Matches env.IsSubDomain s.zones (env.Name r) ≠ "")
    (hs : s.exportedZones (Matches env.IsSubDomain s.zones (env.Name r)) = some (some zone))
    (hres : (env.Lookup zone r (env.Name r)).2.2.2 = Result.ServerFailure) :
    let rep := ServeDNS env s r
    rep.written = [] ∧
    (((env.Lookup zone r (env.Name r)).1 = [] ∧ env.Through s.Fall (env.Name r) = true) →
      rep.forwards = 1 ∧ rep.rcode = (env.NextOrFailure s.Name s.Next r).1 ∧
      rep.err = (env.NextOrFailure s.Name s.Next r).2) ∧
    (¬ ((env.Lookup zone r (env.Name r)).1 = [] ∧ env.Through s.Fall (env.Name r) = true) →
      rep.forwards = 0 ∧ rep.rcode = RcodeServerFailure ∧ rep.err = none) := by
  intro rep
  have hrep : rep = _ := serveDNS_ready env s r zone hz hs
  rcases hl : env.Lookup zone r (env.Name r) with ⟨ans, ns, extra, result⟩
  rw [hl] at hres
  simp only at hres
  subst hres
  simp only [hl] at hrep
  by_cases hcond : ans = [] ∧ env.Through s.Fall (env.Name r) = true
  · obtain ⟨h1, h2⟩ := hcond
    simp [hrep, returnNextOrFailure, Reply.forwards, Reply.written, h1, h2]
  · have hcond' : ¬ (ans.length = 0 ∧ Result.ServerFailure ≠ Result.NoData ∧
        env.Through s.Fall (env.Name r) = true) := by
      intro h
      exact hcond ⟨List.length_eq_zero.mp h.1, h.2.2⟩
    rw [if_neg hcond'] at hrep
    simp [hrep, Reply.forwards, Reply.written, hcond]

/-- Witness of C3, amended: `ServerFailure` with an empty answer and no
fallthrough is answered with `RcodeServerFailure`. -/
theorem ServeDNS_serverFailure_witness :
    (ServeDNS demoEnv (demoScw (some (some ([], [], [], Result.ServerFailure))) [])
      demoQuery).forwards = 0 ∧
    (ServeDNS demoEnv (demoScw (some (some ([], [], [], Result.ServerFailure))) [])
      demoQuery).rcode = RcodeServerFailure ∧
    (ServeDNS demoEnv (demoScw (some (some ([], [], [], Result.ServerFailure))) [])
      demoQuery).err = none :=
  (ServeDNS_serverFailure demoEnv (demoScw (some (some ([], [], [], Result.ServerFailure))) [])
    demoQuery ([], [], [], Result.ServerFailure) (by decide) (by decide) (by decide)).2.2
    (by decide)

/-- C4: when the matched zone has a snapshot and the fallthrough branch is not
taken, every message `ServeDNS` writes carries exactly the answer, authority
and additional sections of the lookup, and for the outcomes `Success`,
`NoData`, `NameError` and `Delegation` exactly one message is written, with
`RcodeSuccess` returned: `Success` and `NoData` give rcode NOERROR and
`Authoritative = true`, `NameError` gives rcode NXDOMAIN and
`Authoritative = true`, `Delegation` gives rcode NOERROR and
`Authoritative = false`. -/
theorem ServeDNS_local_answer {Zone RR H : Type} (env : Env Zone RR H)
    (s : ScwDNS Zone H) (r : Msg RR) (zone : Zone)
    (hz : Matches env.IsSubDomain s.zones (env.Name r) ≠ "")
    (hs : s.exportedZones (Matches env.IsSubDomain s.zones (env.Name r)) = some (some zone))
    (hlocal : ¬ ((env.Lookup zone r (env.Name r)).1.length = 0 ∧
      (env.Lookup zone r (env.Name r)).2.2.2 ≠ Result.NoData ∧
      env.Through s.Fall (env.Name r) = true)) :
    let res := env.Lookup zone r (env.Name r)
    let rep := ServeDNS env s r
    rep.forwards = 0 ∧
    (∀ m ∈ rep.written, m.Answer = res.1 ∧ m.Ns = res.2.1 ∧ m.Extra = res.2.2.1) ∧
    (res.2.2.2 = Result.Success ∨ res.2.2.2 = Result.NoData →
      rep.rcode = RcodeSuccess ∧ rep.err = none ∧
      ∃ m, rep.written = [m] ∧ m.Rcode = RcodeSuccess ∧ m.Authoritative = true) ∧
    (res.2.2.2 = Result.NameError →
      rep.rcode = RcodeSuccess ∧ rep.err = none ∧
      ∃ m, rep.written = [m] ∧ m.Rcode = RcodeNameError ∧ m.Authoritative = true) ∧
    (res.2.2.2 = Result.Delegation →
      rep.rcode = RcodeSuccess ∧ rep.err = none ∧
      ∃ m, rep.written = [m] ∧ m.Rcode = RcodeSuccess ∧ m.Authoritative = false) := by
  intro res rep
  have hrep : rep = _ := serveDNS_ready env s r zone hz hs
  have hset := setReply_header ({} : Msg RR) r
  rcases hl : env.Lookup zone r (env.Name r) with ⟨ans, ns, extra, result⟩
  have hres' : res = (ans, ns, extra, result) := hl
  rw [hl] at hlocal
  simp only [hl] at hrep
  rw [if_neg hlocal] at hrep
  cases result <;>
    simp_all [Reply.forwards, Reply.written, replyMsg]

/-- Witness of C4: the address record of `www.example.com.` is answered with
one authoritative NOERROR message carrying the sections of the lookup. -/
theorem ServeDNS_local_answer_witness :
    (ServeDNS demoEnv (demoScw (some (some demoZoneA)) []) demoQuery).written =
      [{ Id := 7, Response := true, Authoritative := true, RecursionDesired := true,
         Question := [{ Name := "www.example.com.", Qtype := 1, Qclass := 1 }],
         Answer := ["www.example.com. 3600 IN A 192.0.2.1"],
         Ns := ["example.com. 3600 IN NS ns.example.com."] }] ∧
    ∀ m ∈ (ServeDNS demoEnv (demoScw (some (some demoZoneA)) []) demoQuery).written,
      m.Answer = ["www.example.com. 3600 IN A 192.0.2.1"] ∧
      m.Ns = ["example.com. 3600 IN NS ns.example.com."] ∧ m.Extra = [] :=
  ⟨by decide,
   (ServeDNS_local_answer demoEnv (demoScw (some (some demoZoneA)) []) demoQuery demoZoneA
     (by decide) (by decide) (by decide)).2.1⟩

/-- C5: the snapshot `ServeDNS` consults is the store entry of the longest
configured zone the query name is a subdomain of. Writing `z` for that zone:
`z` is a configured zone that matches the query name, strictly longer than
every matching zone before it in the list and at least as long as every
matching zone after it, and it exists as soon as a non-empty configured zone
matches. The reply depends on the store through its entry at `z` alone: two
stores that agree at `z` give the same reply. That entry is the one used: when
it holds a zone, forwarding is decided by the lookup in that zone and every
message written carries the sections of that lookup, one message for each
outcome other than `ServerFailure`; when it is absent or nil the reply is
`RcodeServerFailure`. `z` is the only key read. When the query name is a
subdomain of no configured zone, `ServeDNS` calls `plugin.NextOrFailure` and
returns its result, whatever the store holds. -/
theorem ServeDNS_longest_zone {Zone RR H : Type} (env : Env Zone RR H)
    (s : ScwDNS Zone H) (r : Msg RR) :
    let qname := env.Name r
    let z := Matches env.IsSubDomain s.zones qname
    (z ≠ "" →
      ∃ pre post, s.zones = pre ++ z :: post ∧ env.IsSubDomain z qname = true ∧
        (∀ y ∈ pre, env.IsSubDomain y qname = true → y.utf8ByteSize < z.utf8ByteSize) ∧
        (∀ y ∈ post, env.IsSubDomain y qname = true → y.utf8ByteSize ≤ z.utf8ByteSize)) ∧
    ((∃ zname ∈ s.zones, env.IsSubDomain zname qname = true ∧ 0 < zname.utf8ByteSize) →
      z ≠ "") ∧
    (∀ store1 store2 : zoneFiles Zone, store1 z = store2 z →
      ServeDNS env { s with exportedZones := store1 } r =
        ServeDNS env { s with exportedZones := store2 } r) ∧
    (z ≠ "" → ∀ zone, s.exportedZones z = some (some zone) →
      (0 < (ServeDNS env s r).forwards ↔
        ((env.Lookup zone r qname).1.length = 0 ∧
          (env.Lookup zone r qname).2.2.2 ≠ Result.NoData ∧
          env.Through s.Fall qname = true)) ∧
      (∀ m ∈ (ServeDNS env s r).written,
        m.Answer = (env.Lookup zone r qname).1 ∧ m.Ns = (env.Lookup zone r qname).2.1 ∧
        m.Extra = (env.Lookup zone r qname).2.2.1) ∧
      ((ServeDNS env s r).forwards = 0 →
        (env.Lookup zone r qname).2.2.2 ≠ Result.ServerFailure →
        (ServeDNS env s r).written.length = 1)) ∧
    (z ≠ "" → (s.exportedZones z = none ∨ s.exportedZones z = some none) →
      (ServeDNS env s r).rcode = RcodeServerFailure ∧ (ServeDNS env s r).written = [] ∧
      (ServeDNS env s r).forwards = 0) ∧
    (z ≠ "" → Op.MapRead z ∈ (ServeDNS env s r).ops) ∧
    (∀ k, Op.MapRead k ∈ (ServeDNS env s r).ops → k = z) ∧
    ((∀ zname ∈ s.zones, env.IsSubDomain zname qname = false) →
      ∀ store : zoneFiles Zone,
        ServeDNS env { s with exportedZones := store } r =
          { rcode := (env.NextOrFailure "scaleway" s.Next r).1,
            err := (env.NextOrFailure "scaleway" s.Next r).2,
            ops := [Op.NextOrFailure "scaleway" s.Next r] }) := by
  intro qname z
  have hread : z ≠ "" → Op.MapRead z ∈ (ServeDNS env s r).ops := by
    intro hz
    rcases hst : s.exportedZones z with _ | _ | zone
    · rw [serveDNS_unready env s r hz (Or.inl hst)]
      simp [z, qname]
    · rw [serveDNS_unready env s r hz (Or.inr hst)]
      simp [z, qname]
    · rw [serveDNS_ready env s r zone hz hst]
      simp only
      split
      · simp [returnNextOrFailure, z, qname]
      · split <;> simp [z, qname]
  refine ⟨?_, ?_, ?_, ?_, ?_, hread, ?_, ?_⟩
  · intro hz
    obtain ⟨_, _, hmax⟩ := matches_foldl_spec env.IsSubDomain qname s.zones ""
    rcases matches_foldl_first env.IsSubDomain qname s.zones "" with h | ⟨pre, post, h1, h2, _, h4⟩
    · exact absurd h hz
    · refine ⟨pre, post, h1, h2, h4, ?_⟩
      intro y hy hsub
      apply hmax y _ hsub
      have hmem : y ∈ pre ++ Matches env.IsSubDomain s.zones qname :: post :=
        List.mem_append_right _ (List.mem_cons_of_mem _ hy)
      exact h1 ▸ hmem
  · rintro ⟨zname, hmem, hsub, hpos⟩ hz
    obtain ⟨_, _, hmax⟩ := matches_foldl_spec env.IsSubDomain qname s.zones ""
    have h1 : zname.utf8ByteSize ≤ z.utf8ByteSize := hmax zname hmem hsub
    have h2 : z.utf8ByteSize = 0 := by
      rw [hz]; rfl
    omega
  · intro store1 store2 hst
    by_cases hz : z = ""
    · have e1 := serveDNS_unmatched env { s with exportedZones := store1 } r hz
      have e2 := serveDNS_unmatched env { s with exportedZones := store2 } r hz
      rw [e1, e2]
      rfl
    · rcases h2 : store2 z with _ | _ | zone
      · have e1 := serveDNS_unready env { s with exportedZones := store1 } r hz
          (Or.inl (hst.trans h2))
        have e2 := serveDNS_unready env { s with exportedZones := store2 } r hz (Or.inl h2)
        rw [e1, e2]
      · have e1 := serveDNS_unready env { s with exportedZones := store1 } r hz
          (Or.inr (hst.trans h2))
        have e2 := serveDNS_unready env { s with exportedZones := store2 } r hz (Or.inr h2)
        rw [e1, e2]
      · have e1 := serveDNS_ready env { s with exportedZones := store1 } r zone hz
          (hst.trans h2)
        have e2 := serveDNS_ready env { s with exportedZones := store2 } r zone hz h2
        rw [e1, e2]
        rfl
  · intro hz zone hst
    have hrep := serveDNS_ready env s r zone hz hst
    have hset := setReply_header ({} : Msg RR) r
    rcases hl : env.Lookup zone r (env.Name r) with ⟨ans, ns, extra, result⟩
    have hl' : env.Lookup zone r qname = (ans, ns, extra, result) := hl
    simp only [hl] at hrep
    by_cases hcond : ans.length = 0 ∧ result ≠ Result.NoData ∧
        env.Through s.Fall (env.Name r) = true
    · rw [if_pos hcond] at hrep
      obtain ⟨h1, h2, h3⟩ := hcond
      have hans : ans = [] := List.length_eq_zero.mp h1
      simp [hrep, returnNextOrFailure, Reply.forwards, Reply.written, h2, h3, hans, qname]
    · rw [if_neg hcond] at hrep
      cases result <;>
        simp_all [Reply.forwards, Reply.written, replyMsg, qname]
  · intro hz hst
    rw [serveDNS_unready env s r hz hst]
    simp [Reply.forwards, Reply.written]
  · intro k hk
    by_cases hz : z = ""
    · rw [serveDNS_unmatched env s r hz] at hk
      simp [returnNextOrFailure] at hk
    · rcases hst : s.exportedZones z with _ | _ | zone
      · rw [serveDNS_unready env s r hz (Or.inl hst)] at hk
        simpa using hk
      · rw [serveDNS_unready env s r hz (Or.inr hst)] at hk
        simpa using hk
      · rw [serveDNS_ready env s r zone hz hst] at hk
        simp only at hk
        split at hk
        · simpa [returnNextOrFailure] using hk
        · split at hk <;> simpa using hk
  · intro hnone store
    have hz := matches_none env.IsSubDomain s.zones (env.Name r) hnone
    rw [serveDNS_unmatched env { s with exportedZones := store } r hz]
    rfl

/-- Witness of C5: for `www.example.com.` the zones `com.` and `example.com.`
both match and the answer is the one of the snapshot stored under
`example.com.`, whatever is stored under `com.`; `www.example.net.` matches no
zone and is forwarded. -/
theorem ServeDNS_longest_zone_witness :
    Matches demoEnv.IsSubDomain ["com.", "example.com.", "example.org."]
      (demoEnv.Name demoQuery) = "example.com." ∧
    ServeDNS demoEnv
        { demoScw none [] with
          exportedZones := fun k =>
            if k = "com." then some (some ([], [], [], Result.NameError))
            else if k = "example.com." then some (some demoZoneA) else none }
        demoQuery =
      ServeDNS demoEnv (demoScw (some (some demoZoneA)) []) demoQuery ∧
    (∀ m ∈ (ServeDNS demoEnv (demoScw (some (some demoZoneA)) []) demoQuery).written,
      m.Answer = ["www.example.com. 3600 IN A 192.0.2.1"] ∧
      m.Ns = ["example.com. 3600 IN NS ns.example.com."] ∧ m.Extra = []) ∧
    ServeDNS demoEnv { demoScw (some (some demoZoneA)) [] with zones := ["example.org."] }
        demoQuery =
      { rcode := RcodeSuccess, err := none,
        ops := [Op.NextOrFailure "scaleway" (some ()) demoQuery] } :=
  ⟨by decide,
   (ServeDNS_longest_zone demoEnv (demoScw none []) demoQuery).2.2.1 _ _ (by decide),
   ((ServeDNS_longest_zone demoEnv (demoScw (some (some demoZoneA)) []) demoQuery).2.2.2.1
     (by decide) demoZoneA (by decide)).2.1,
   (ServeDNS_longest_zone demoEnv
     { demoScw (some (some demoZoneA)) [] with zones := ["example.org."] } demoQuery).2.2.2.2.2.2.2
     (by decide) _⟩

/-- C8, as stated, fails: a query against a ready zone whose lookup gives
`ServerFailure`, with no fallthrough, is neither answered with a message nor
forwarded; `ServeDNS` only returns `RcodeServerFailure`. The same holds for a
query inside a configured zone whose snapshot is absent. -/
theorem ServeDNS_neither_writes_nor_forwards :
    ((ServeDNS demoEnv (demoScw (some (some ([], [], [], Result.ServerFailure))) [])
        demoQuery).written = [] ∧
      (ServeDNS demoEnv (demoScw (some (some ([], [], [], Result.ServerFailure))) [])
        demoQuery).forwards = 0 ∧
      (ServeDNS demoEnv (demoScw (some (some ([], [], [], Result.ServerFailure))) [])
        demoQuery).rcode = RcodeServerFailure) ∧
    ((ServeDNS demoEnv (demoScw none []) demoQuery).written = [] ∧
      (ServeDNS demoEnv (demoScw none []) demoQuery).forwards = 0 ∧
      (ServeDNS demoEnv (demoScw none []) demoQuery).rcode = RcodeServerFailure) := by
  decide

/-- C8, amended: for every query, store state and lookup outcome, `ServeDNS`
does exactly one of three things: it writes one message and returns
`RcodeSuccess`; or it hands the query to `plugin.NextOrFailure`, writes nothing
and returns its result; or it returns `RcodeServerFailure` with a nil error
having neither written nor forwarded, which happens only for a matched zone
that has no snapshot or whose lookup outcome is `ServerFailure`. -/
theorem ServeDNS_write_forward_or_fail {Zone RR H : Type} (env : Env Zone RR H)
    (s : ScwDNS Zone H) (r : Msg RR) :
    let rep := ServeDNS env s r
    let zoneName := Matches env.IsSubDomain s.zones (env.Name r)
    (rep.written.length = 1 ∧ rep.forwards = 0 ∧ rep.rcode = RcodeSuccess ∧ rep.err = none) ∨
    (rep.written = [] ∧ rep.forwards = 1 ∧
      rep.rcode = (env.NextOrFailure s.Name s.Next r).1 ∧
      rep.err = (env.NextOrFailure s.Name s.Next r).2) ∨
    (rep.written = [] ∧ rep.forwards = 0 ∧ rep.rcode = RcodeServerFailure ∧ rep.err = none ∧
      zoneName ≠ "" ∧
      (s.exportedZones zoneName = none ∨ s.exportedZones zoneName = some none ∨
        ∃ zone, s.exportedZones zoneName = some (some zone) ∧
          (env.Lookup zone r (env.Name r)).2.2.2 = Result.ServerFailure)) := by
  intro rep zoneName
  by_cases hz : Matches env.IsSubDomain s.zones (env.Name r) = ""
  · right; left
    have hrep : rep = _ := serveDNS_unmatched env s r hz
    simp [hrep, returnNextOrFailure, Reply.forwards, Reply.written]
  · rcases hst : s.exportedZones (Matches env.IsSubDomain s.zones (env.Name r))
      with _ | _ | zone
    · right; right
      have hrep : rep = _ := serveDNS_unready env s r hz (Or.inl hst)
      simp [hrep, Reply.forwards, Reply.written, zoneName, hz, hst]
    · right; right
      have hrep : rep = _ := serveDNS_unready env s r hz (Or.inr hst)
      simp [hrep, Reply.forwards, Reply.written, zoneName, hz, hst]
    · have hrep : rep = _ := serveDNS_ready env s r zone hz hst
      rcases hl : env.Lookup zone r (env.Name r) with ⟨ans, ns, extra, result⟩
      simp only [hl] at hrep
      by_cases hcond : ans.length = 0 ∧ result ≠ Result.NoData ∧
          env.Through s.Fall (env.Name r) = true
      · right; left
        rw [if_pos hcond] at hrep
        simp [hrep, returnNextOrFailure, Reply.forwards, Reply.written]
      · rw [if_neg hcond] at hrep
        cases result with
        | ServerFailure =>
          right; right
          simp [hrep, Reply.forwards, Reply.written, zoneName, hz, hst, hl]
        | Success => left; simp [hrep, Reply.forwards, Reply.written]
        | NoData => left; simp [hrep, Reply.forwards, Reply.written]
        | NameError => left; simp [hrep, Reply.forwards, Reply.written]
        | Delegation => left; simp [hrep, Reply.forwards, Reply.written]

/-- C9: the map read `s.exportedZones[zoneName]` is not covered by the read
lock. For every query whose name matches a configured zone, the first
operation of `ServeDNS` is the read of the snapshot mapping, made before
`RLock`, so the operations do not keep the lock discipline; what follows the
map read (the lookup between `RLock` and `RUnlock`) does keep it. -/
theorem ServeDNS_map_read_outside_lock {Zone RR H : Type} (env : Env Zone RR H)
    (s : ScwDNS Zone H) (r : Msg RR)
    (hz : Matches env.IsSubDomain s.zones (env.Name r) ≠ "") :
    (ServeDNS env s r).ops.head? =
      some (Op.MapRead (Matches env.IsSubDomain s.zones (env.Name r))) ∧
    readsUnderRLock false (ServeDNS env s r).ops = false ∧
    readsUnderRLock false ((ServeDNS env s r).ops.drop 1) = true := by
  rcases hst : s.exportedZones (Matches env.IsSubDomain s.zones (env.Name r))
    with _ | _ | zone
  · rw [serveDNS_unready env s r hz (Or.inl hst)]
    simp [readsUnderRLock]
  · rw [serveDNS_unready env s r hz (Or.inr hst)]
    simp [readsUnderRLock]
  · rw [serveDNS_ready env s r zone hz hst]
    simp only
    split
    · simp [returnNextOrFailure, readsUnderRLock]
    · split <;> simp [readsUnderRLock]

/-- Witness of C9: the query `www.example.com.` against the ready zone
`example.com.` reads the mapping before taking the read lock. -/
theorem ServeDNS_map_read_outside_lock_witness :
    (ServeDNS demoEnv (demoScw (some (some demoZoneA)) []) demoQuery).ops.take 2 =
      [Op.MapRead "example.com.", Op.RLock] ∧
    readsUnderRLock false
      (ServeDNS demoEnv (demoScw (some (some demoZoneA)) []) demoQuery).ops = false :=
  ⟨by decide,
   (ServeDNS_map_read_outside_lock demoEnv (demoScw (some (some demoZoneA)) []) demoQuery
     (by decide)).2.1⟩

/-! ## The refresh path -/

/-- One goroutine: it stores the fetched zone under its own key and sends nil,
or leaves the state alone and sends an error. -/
theorem updateZone_spec {Zone Content H : Type} (p : Provider Zone Content)
    (s : ScwDNS Zone H) (zoneName : String) :
    (∀ k, (updateZone p s zoneName).1.exportedZones k =
      if k = zoneName then
        (match fetched p zoneName with
          | some zoneFile => some (some zoneFile)
          | none => s.exportedZones k)
      else s.exportedZones k) ∧
    ((updateZone p s zoneName).2 = none ↔ (fetched p zoneName).isSome = true) ∧
    (updateZone p s zoneName).1.zones = s.zones ∧
    (updateZone p s zoneName).1.Next = s.Next ∧
    (updateZone p s zoneName).1.Fall = s.Fall := by
  unfold updateZone fetched
  cases hexport : p.ExportRawDNSZone zoneName with
  | error e => simp
  | ok resp =>
    cases hparse : p.Parse resp zoneName with
    | error e => simp [hparse]
    | ok zoneFile => simp [hparse]

/-- The goroutines of a cycle, in any order of completion: the store, the
other fields and the collected errors. -/
theorem runZones_spec {Zone Content H : Type} (p : Provider Zone Content)
    (order : List String) (s : ScwDNS Zone H) (errs : List String) :
    (∀ k, (runZones p order (s, errs)).1.exportedZones k =
      if k ∈ order then
        (match fetched p k with
          | some zoneFile => some (some zoneFile)
          | none => s.exportedZones k)
      else s.exportedZones k) ∧
    (runZones p order (s, errs)).2.length =
      errs.length + (order.filter (fun k => (fetched p k).isNone)).length ∧
    (runZones p order (s, errs)).1.zones = s.zones ∧
    (runZones p order (s, errs)).1.Next = s.Next ∧
    (runZones p order (s, errs)).1.Fall = s.Fall := by
  induction order generalizing s errs with
  | nil => simp [runZones]
  | cons zoneName rest ih =>
    obtain ⟨h1, h2, h3, h4, h5⟩ := updateZone_spec p s zoneName
    rcases hu : updateZone p s zoneName with ⟨s1, e⟩
    rw [hu] at h1 h2 h3 h4 h5
    simp only at h1 h2 h3 h4 h5
    have hstore : ∀ errs1, ∀ k, (runZones p rest (s1, errs1)).1.exportedZones k =
        if k ∈ zoneName :: rest then
          (match fetched p k with
            | some zoneFile => some (some zoneFile)
            | none => s.exportedZones k)
        else s.exportedZones k := by
      intro errs1 k
      rw [(ih s1 errs1).1 k, h1 k]
      by_cases hk : k = zoneName
      · subst hk
        cases hf : fetched p k <;> simp
      · simp [hk]
    cases e with
    | none =>
      have hsome : (fetched p zoneName).isSome = true := h2.mp rfl
      have hnone : (fetched p zoneName).isNone = false := by
        cases hf : fetched p zoneName <;> simp_all
      obtain ⟨_, i2, i3, i4, i5⟩ := ih s1 errs
      simp only [runZones, hu]
      refine ⟨hstore errs, ?_, by rw [i3, h3], by rw [i4, h4], by rw [i5, h5]⟩
      rw [i2, List.filter_cons]
      simp [hnone]
    | some err =>
      have hsome : ¬ (fetched p zoneName).isSome = true := fun h => by
        have := h2.mpr h
        simp at this
      have hnone : (fetched p zoneName).isNone = true := by
        cases hf : fetched p zoneName <;> simp_all
      obtain ⟨_, i2, i3, i4, i5⟩ := ih s1 (errs ++ [err])
      simp only [runZones, hu]
      refine ⟨hstore (errs ++ [err]), ?_, by rw [i3, h3], by rw [i4, h4], by rw [i5, h5]⟩
      rw [i2, List.filter_cons]
      simp [hnone]
      omega

/-- C6: one refresh cycle over pairwise distinct zones, the goroutines
completing in any order. Each zone whose export and parse succeeded maps to
exactly the newly compiled zone, each zone whose export or parse failed keeps
its previous entry (or stays absent), and no other key changes. The cycle
returns nil exactly when every zone succeeded, otherwise a combined error of
one entry per failed zone; the zones that succeeded are stored in either
case. The other fields of the state are unchanged. -/
theorem updateZones_store {Zone Content H : Type} (p : Provider Zone Content)
    (s : ScwDNS Zone H) (order : List String)
    (_hdistinct : s.zones.Nodup) (hperm : order.Perm s.zones) :
    let res := updateZones p s order
    (∀ k ∈ s.zones, ∀ zoneFile, fetched p k = some zoneFile →
      res.1.exportedZones k = some (some zoneFile)) ∧
    (∀ k ∈ s.zones, fetched p k = none → res.1.exportedZones k = s.exportedZones k) ∧
    (∀ k, k ∉ s.zones → res.1.exportedZones k = s.exportedZones k) ∧
    (res.2 = none ↔ ∀ k ∈ s.zones, (fetched p k).isSome = true) ∧
    (∀ errs, res.2 = some errs →
      errs ≠ [] ∧ errs.length = (s.zones.filter (fun k => (fetched p k).isNone)).length) ∧
    res.1.zones = s.zones ∧ res.1.Next = s.Next ∧ res.1.Fall = s.Fall := by
  intro res
  obtain ⟨h1, h2, h3, h4, h5⟩ := runZones_spec p order s []
  have hlen : (runZones p order (s, [])).2.length =
      (s.zones.filter (fun k => (fetched p k).isNone)).length := by
    rw [h2, (hperm.filter _).length_eq]
    simp
  have hfst : res.1 = (runZones p order (s, [])).1 := by
    simp only [res, updateZones]
    split <;> rfl
  have hsnd : res.2 = if (runZones p order (s, [])).2.length ≠ 0
      then some (runZones p order (s, [])).2 else none := by
    simp only [res, updateZones]
    split <;> simp_all
  have hmem : ∀ k, k ∈ order ↔ k ∈ s.zones := fun k => hperm.mem_iff
  refine ⟨?_, ?_, ?_, ?_, ?_, by rw [hfst, h3], by rw [hfst, h4], by rw [hfst, h5]⟩
  · intro k hk zoneFile hf
    rw [hfst, h1 k, if_pos ((hmem k).mpr hk), hf]
  · intro k hk hf
    rw [hfst, h1 k, if_pos ((hmem k).mpr hk), hf]
  · intro k hk
    rw [hfst, h1 k, if_neg (fun h => hk ((hmem k).mp h))]
  · rw [hsnd, hlen]
    constructor
    · intro h k hk
      by_contra hne
      have hkf : k ∈ s.zones.filter (fun k => (fetched p k).isNone) := by
        rw [List.mem_filter]
        refine ⟨hk, ?_⟩
        cases hf : fetched p k <;> simp_all
      have hpos := List.length_pos_of_mem hkf
      rw [if_pos (by omega)] at h
      exact Option.some_ne_none _ h
    · intro h
      have hnil : s.zones.filter (fun k => (fetched p k).isNone) = [] := by
        rw [List.filter_eq_nil_iff]
        intro k hk
        have := h k hk
        cases hf : fetched p k <;> simp_all
      rw [hnil]
      simp
  · intro errs he
    rw [hsnd] at he
    split at he
    · rename_i hne
      have he' : (runZones p order (s, [])).2 = errs := by simpa using he
      rw [← he', hlen]
      refine ⟨?_, rfl⟩
      intro hnil
      rw [hnil] at hne
      simp at hne
    · exact absurd he (by simp)

/-- Witness of C6: `example.org.` completes first and fails to parse,
`example.com.` succeeds and is stored, and the cycle reports an error. -/
theorem updateZones_store_witness :
    demoFresh.zones = ["example.com.", "example.org."] ∧
    (updateZones demoProvider demoFresh ["example.org.", "example.com."]).1.exportedZones
      "example.com." = some (some demoZoneA) ∧
    (updateZones demoProvider demoFresh ["example.org.", "example.com."]).1.exportedZones
      "example.org." = none ∧
    (updateZones demoProvider demoFresh ["example.org.", "example.com."]).2 =
      some ["failed to parse zone file: syntax error"] :=
  ⟨by decide,
   (updateZones_store demoProvider demoFresh ["example.org.", "example.com."] (by decide)
     (List.Perm.swap _ _ _)).1 "example.com." (by decide) demoZoneA (by decide),
   by decide, by decide⟩

/-- C7, as stated, fails: the configuration `scaleway` without arguments
parses to an empty zone list; with it no zone is fetched, yet `Run` returns nil
and the store holds no snapshot at all. -/
theorem Run_without_zones_returns_nil :
    parse (fun f _ => f) (NewTestController (config "Corefile" 1 "scaleway" [] 1 [])) =
      some ({}, none) ∧
    (New demoFqdn [] {} : ScwDNS DemoZone Unit × Option String).1.zones = [] ∧
    (Run demoProvider (New demoFqdn [] {} : ScwDNS DemoZone Unit × Option String).1 []).2 =
      none ∧
    ∀ k, (Run demoProvider
      (New demoFqdn [] {} : ScwDNS DemoZone Unit × Option String).1 []).1.exportedZones k =
      none :=
  ⟨by decide, rfl, rfl, fun _ => rfl⟩

/-- C7, amended: for every non-empty configured zone list and every outcome of
the initial synchronous refresh, if no zone was successfully fetched then `Run`
returns an error; and whenever `Run` returns nil on a freshly constructed
`ScwDNS` with a non-empty zone list, the store holds a snapshot for every
configured zone, hence for at least one. -/
theorem Run_starts_with_snapshots {Zone Content H : Type} (p : Provider Zone Content)
    (Fqdn : String → String) (zones : List String) (f : F) (order : List String)
    (hne : zones ≠ [])
    (hperm : order.Perm (New Fqdn zones f : ScwDNS Zone H × Option String).1.zones) :
    let s := (New Fqdn zones f : ScwDNS Zone H × Option String).1
    let res := Run p s order
    (New Fqdn zones f : ScwDNS Zone H × Option String).2 = none ∧
    ((∀ k ∈ s.zones, fetched p k = none) → res.2 ≠ none) ∧
    (res.2 = none → ∀ k ∈ s.zones, ∃ zoneFile, res.1.exportedZones k = some (some zoneFile)) ∧
    (res.2 = none → ∃ k ∈ s.zones, ∃ zoneFile, res.1.exportedZones k = some (some zoneFile)) := by
  intro s res
  have hrun : res = updateZones p s order := by
    simp only [res, Run]
    split <;> simp_all
  have hszones : s.zones = zones.map Fqdn := rfl
  have hsne : s.zones ≠ [] := by
    rw [hszones]
    simpa using hne
  obtain ⟨h1, h2, h3, h4, h5⟩ := runZones_spec p order s []
  have hfst : (updateZones p s order).1 = (runZones p order (s, [])).1 := by
    simp only [updateZones]
    split <;> rfl
  have hnil : (updateZones p s order).2 = none →
      order.filter (fun k => (fetched p k).isNone) = [] := by
    intro h
    simp only [updateZones] at h
    split at h
    · exact absurd h (by simp)
    · rename_i hlen
      rw [h2] at hlen
      simpa using hlen
  have hall : res.2 = none →
      ∀ k ∈ s.zones, ∃ zoneFile, res.1.exportedZones k = some (some zoneFile) := by
    intro hres k hk
    rw [hrun] at hres ⊢
    have hfil := hnil hres
    have hko : k ∈ order := hperm.mem_iff.mpr hk
    rw [List.filter_eq_nil_iff] at hfil
    have hk' := hfil k hko
    cases hf : fetched p k with
    | none => simp [hf] at hk'
    | some zoneFile =>
      refine ⟨zoneFile, ?_⟩
      rw [hfst, h1 k, if_pos hko, hf]
  refine ⟨rfl, ?_, hall, ?_⟩
  · intro hfail hres
    obtain ⟨k, hk⟩ := List.exists_mem_of_ne_nil _ hsne
    obtain ⟨zoneFile, hz⟩ := hall hres k hk
    rw [hrun, hfst, h1 k, if_pos (hperm.mem_iff.mpr hk), hfail k hk] at hz
    have hempty : s.exportedZones k = none := rfl
    rw [hempty] at hz
    exact absurd hz (by simp)
  · intro hres
    obtain ⟨k, hk⟩ := List.exists_mem_of_ne_nil _ hsne
    exact ⟨k, hk, hall hres k hk⟩

/-- Witness of C7, amended: started on `example.com` alone, `Run` returns nil
and the store holds the snapshot of `example.com.`. -/
theorem Run_starts_with_snapshots_witness :
    (Run demoProvider (New demoFqdn ["example.com"] {} :
      ScwDNS DemoZone Unit × Option String).1 ["example.com."]).2 = none ∧
    ∃ k ∈ (New demoFqdn ["example.com"] {} : ScwDNS DemoZone Unit × Option String).1.zones,
      ∃ zoneFile, (Run demoProvider (New demoFqdn ["example.com"] {} :
        ScwDNS DemoZone Unit × Option String).1 ["example.com."]).1.exportedZones k =
        some (some zoneFile) :=
  ⟨by decide,
   (Run_starts_with_snapshots (H := Unit) demoProvider demoFqdn ["example.com"] {}
     ["example.com."] (by decide) (List.Perm.refl _)).2.2.2 (by decide)⟩

/-! ## The configuration parser -/

/-- The cursor of `zipAt` is the number of tokens behind it. -/
theorem zipAt_cursor (b : List Token) (cur : Token) (a : List Token) (k : Int) :
    (zipAt b cur a k).cursor = (b.length : Int) := rfl

/-- Moving the cursor of `zipAt` one token back. -/
theorem zipAt_back (b : List Token) (cur n : Token) (a : List Token) (k : Int) :
    ({ zipAt (b ++ [cur]) n a k with cursor := (zipAt (b ++ [cur]) n a k).cursor - 1 } :
      Controller) = zipAt b cur (n :: a) k := by
  simp [zipAt]

/-- `Next` stays on the last token. -/
theorem zipAt_Next_nil (b : List Token) (cur : Token) (k : Int) :
    (zipAt b cur [] k).Next = (false, zipAt b cur [] k) := by
  simp [zipAt, Controller.Next]

/-- `NextArg` stays on the last token. -/
theorem zipAt_NextArg_nil (b : List Token) (cur : Token) (k : Int) :
    (zipAt b cur [] k).NextArg = (false, zipAt b cur [] k) := by
  have h1 : ¬ ((b.length : Int) < 0) := by omega
  rw [Controller.NextArg, zipAt_cursor, if_neg h1]
  split
  · rfl
  · have h3 : (zipAt b cur [] k).tokenAt ((b.length : Int) + 1) = none := by
      have h : ¬ ((b.length : Int) + 1 < 0) := by omega
      have h2 : ((b.length : Int) + 1).toNat = b.length + 1 := by omega
      simp only [zipAt, Controller.tokenAt, h, if_false, h2]
      simp
    rw [h3]
    split <;> simp_all

/-- `NextArg` either stays, or moves one token forward from a cursor that was
before the end. -/
theorem nextArg_cases (c : Controller) :
    (c.NextArg = (false, c)) ∨
    (c.NextArg = (true, { c with cursor := c.cursor + 1 }) ∧
      c.cursor < (c.tokens.length : Int)) := by
  unfold Controller.NextArg
  split
  · right
    exact ⟨rfl, by omega⟩
  · split
    · left; rfl
    · split
      · split
        · right
          exact ⟨rfl, by omega⟩
        · left; rfl
      · left; rfl

/-- `Next` either stays, or moves one token forward from a cursor that was
before the end. -/
theorem next_cases (c : Controller) :
    c.Next.2 = c ∨ (c.Next.2 = { c with cursor := c.cursor + 1 } ∧
      c.cursor < (c.tokens.length : Int)) := by
  unfold Controller.Next
  split
  · right
    exact ⟨rfl, by omega⟩
  · left; rfl

/-- `NextBlock` keeps the tokens and never moves the cursor back. -/
theorem nextBlock_cursor (c : Controller) :
    c.NextBlock.2.tokens = c.tokens ∧ c.cursor ≤ c.NextBlock.2.cursor := by
  unfold Controller.NextBlock
  split
  · rcases next_cases c with h | ⟨h, _⟩ <;> simp only [h] <;> split <;> simp
  · rcases nextArg_cases c with h | ⟨h, _⟩
    · simp [h]
    · simp only [h, Bool.not_true, Bool.false_eq_true, if_false]
      split
      · simp
      · rcases next_cases { c with cursor := c.cursor + 1 } with h2 | ⟨h2, _⟩ <;>
          simp only [h2] <;> split <;> simp <;> omega

/-- The loop of `RemainingArgs` ends within one call of `NextArg` more than
there are tokens from the cursor on. -/
theorem remainingArgsLoop_total :
    ∀ (fuel : Nat) (c : Controller) (acc : List String),
      ((c.tokens.length : Int) - c.cursor).toNat + 1 ≤ fuel →
      ∃ args c1, Controller.RemainingArgsLoop fuel c acc = some (args, c1) ∧
        c1.tokens = c.tokens ∧ c.cursor ≤ c1.cursor := by
  intro fuel
  induction fuel with
  | zero => intro c acc h; omega
  | succ fuel ih =>
    intro c acc h
    rcases nextArg_cases c with hna | ⟨hna, hlt⟩
    · exact ⟨acc, c, by simp [Controller.RemainingArgsLoop, hna], rfl, le_refl _⟩
    · simp only [Controller.RemainingArgsLoop, hna, Bool.not_true, Bool.false_eq_true, if_false]
      split
      · exact ⟨acc, _, rfl, rfl, by simp⟩
      · obtain ⟨args, c1, h1, h2, h3⟩ := ih { c with cursor := c.cursor + 1 }
          (acc ++ [Controller.Val { c with cursor := c.cursor + 1 }]) (by simp only; omega)
        exact ⟨args, c1, h1, h2, by simp only at h3; omega⟩

/-- `RemainingArgs` returns: its fuel is never used up. -/
theorem remainingArgs_total (c : Controller) (hc : -1 ≤ c.cursor) :
    ∃ args c1, c.RemainingArgs = some (args, c1) ∧ c1.tokens = c.tokens ∧
      c.cursor ≤ c1.cursor :=
  remainingArgsLoop_total _ c [] (by omega)

/-- The loop of `parse` ends within one iteration more than there are tokens
from the cursor on. -/
theorem parseBlock_total (setZ : F → List String → F) :
    ∀ (fuel : Nat) (c : Controller) (s : Settings),
      ((c.tokens.length : Int) - c.cursor).toNat + 1 ≤ fuel → -1 ≤ c.cursor →
      ∃ res, parseBlock setZ fuel c s = some res := by
  intro fuel
  induction fuel with
  | zero => intro c s h; omega
  | succ fuel ih =>
    intro c s h hc
    obtain ⟨hbt, hbc⟩ := nextBlock_cursor c
    rcases hnb : c.NextBlock with ⟨more, c1⟩
    rw [hnb] at hbt hbc
    simp only at hbt hbc
    have hlen : (c1.tokens.length : Int) = (c.tokens.length : Int) := by rw [hbt]
    cases more with
    | false => exact ⟨(s, none), by simp [parseBlock, hnb]⟩
    | true =>
      rcases nextArg_cases c1 with hna | ⟨hna, hlt⟩
      · exact ⟨(s, some ParseError.ArgErr), by simp [parseBlock, hnb, hna]⟩
      · have hrec : ∀ s1, ∃ res,
            parseBlock setZ fuel { c1 with cursor := c1.cursor + 1 } s1 = some res :=
          fun s1 => ih _ s1 (by simp only; omega) (by simp only; omega)
        obtain ⟨args, c2, hra, hrt, hrc⟩ :=
          remainingArgs_total { c1 with cursor := c1.cursor + 1 } (by simp only; omega)
        have hlen2 : (c2.tokens.length : Int) = (c.tokens.length : Int) := by
          rw [hrt]
          exact hlen
        have hrec2 : ∀ s1, ∃ res, parseBlock setZ fuel c2 s1 = some res :=
          fun s1 => ih _ s1 (by simp only at hrc; omega) (by simp only at hrc; omega)
        simp only [parseBlock, hnb, hna, Bool.not_true, Bool.false_eq_true, if_false, hra]
        split
        · exact hrec _
        · split
          · exact hrec _
          · split
            · exact hrec _
            · split
              · exact hrec2 _
              · exact ⟨_, rfl⟩

/-- The function `parse` returns on every token list: the fuel of the model is
never used up. -/
theorem parse_total (setZ : F → List String → F) (tokens : List Token) :
    ∃ res, parse setZ (NewTestController tokens) = some res := by
  have hn : -1 ≤ (NewTestController tokens).Next.2.cursor ∧
      (NewTestController tokens).Next.2.tokens = tokens := by
    rcases next_cases (NewTestController tokens) with h | ⟨h, _⟩ <;> rw [h] <;>
      simp [NewTestController]
  obtain ⟨args, c1, hra, hrt, hrc⟩ := remainingArgs_total _ hn.1
  obtain ⟨res, hres⟩ := parseBlock_total setZ (c1.tokens.length + 2) c1
    { zones := ([] : List String) ++ args } (by omega) (by omega)
  exact ⟨res, by simp only [parse, hra]; exact hres⟩

end Scaleway
